import Mathlib

/-!
# dnspropagation: the multi-resolver query dispatcher

A shallow embedding of `main.go` (the extractor table `getA` .. `getDS`,
`extractFn`, `queryDNSServers`, `printResults`) and of the resolver directory
of `internal/servers/servers.go`, followed by the properties proved of them.

Conventions of the embedding.

* A Go `uint16` record-type code is a `Nat`; the codes used are constants
  below 65536 and no arithmetic is done on them.
* A Go `[]string` is a `List String`; a nil slice and an empty slice are both
  the empty list.
* A Go `error` is its message, a `String`, and `none` is the nil error.
* The goroutines started by `queryDNSServers` are returned, next to its error,
  as a list of closures; their interleaving is a step function on a scheduler
  state whose sink is the sequence of values received from the result channel.
* The DNS transport (`dns.Client.Exchange`) is an oracle, one result per call.
-/

set_option linter.dupNamespace false

/-! ## Standard-library and `miekg/dns` types used by the program -/

namespace net

/-- Go's `net.IP`: a byte slice (each element a byte value). -/
abbrev IP := List Nat

/-- Lower-case hexadecimal digit of a value below 16. -/
def hexDigit (n : Nat) : Char :=
  if n < 10 then Char.ofNat (48 + n) else Char.ofNat (87 + n)

/-- Lower-case hexadecimal digits of `n`, without leading zeros (`"0"` for 0);
`fuel` bounds the number of digits. -/
def hexDigits : Nat → Nat → List Char
  | 0, _ => []
  | fuel + 1, n =>
    if n < 16 then [hexDigit n] else hexDigits fuel (n / 16) ++ [hexDigit (n % 16)]

/-- Go's `hexString`: two lower-case hexadecimal digits per byte. -/
def hexString (b : List Nat) : List Char :=
  b.foldr (fun x acc => hexDigit (x / 16 % 16) :: hexDigit (x % 16) :: acc) []

/-- Go's `IP.To4`: the four-byte form of an IPv4 address, also when it is stored
in sixteen bytes as `::ffff:a.b.c.d`; `none` stands for the nil result. -/
def IP.To4 (ip : IP) : Option IP :=
  if ip.length = 4 then some ip
  else if ip.length = 16 ∧ (ip.take 10).all (fun b => b == 0)
      ∧ ip.getD 10 0 = 255 ∧ ip.getD 11 0 = 255 then some (ip.drop 12)
  else none

/-- The eight 16-bit groups of a sixteen-byte address. -/
def groups : List Nat → List Nat
  | hi :: lo :: rest => (hi * 256 + lo) :: groups rest
  | _ => []

/-- Length of the run of zero groups at the head of `g`. -/
def zeroRun : List Nat → Nat
  | 0 :: rest => zeroRun rest + 1
  | _ => 0

/-- The scan of `IP.String` for the longest run of zero groups: starting at
group `i` with the best run `(start, stop)` found so far, the leftmost longest run
of at least two zero groups, as `(start, stop)`; `none` when there is none. -/
def longestZeroRun : List Nat → Nat → Option (Nat × Nat) → Option (Nat × Nat)
  | [], _, best => best
  | g :: rest, i, best =>
    let l := zeroRun (g :: rest)
    let cur := match best with
      | some (s, e) => e - s
      | none => 0
    if 2 ≤ l ∧ cur < l then longestZeroRun rest (i + 1) (some (i, i + l))
    else longestZeroRun rest (i + 1) best

/-- The groups from index `i` on, each in hexadecimal, separated by colons, with
the zero run `run` replaced by `::`. -/
def renderGroups (run : Option (Nat × Nat)) : Nat → List Nat → Nat → List Char
  | 0, _, _ => []
  | _ + 1, [], _ => []
  | fuel + 1, g :: rest, i =>
    match run with
    | some (s, e) =>
      if i = s then
        ':' :: ':' :: (match (g :: rest).drop (e - s) with
          | [] => []
          | g2 :: rest2 => hexDigits 4 g2 ++ renderGroups run fuel rest2 (e + 1))
      else
        (if 0 < i then [':'] else []) ++ hexDigits 4 g ++ renderGroups run fuel rest (i + 1)
    | none =>
      (if 0 < i then [':'] else []) ++ hexDigits 4 g ++ renderGroups run fuel rest (i + 1)

/-- Dotted-decimal notation of a byte list. -/
def dotted (p4 : List Nat) : String :=
  ".".intercalate (p4.map toString)

/-- Go's `IP.String`: `"<nil>"` for an empty address, `?` and the bytes in
hexadecimal for a length other than 4 and 16, dotted decimal for an IPv4 address
(in either form), and the colon-separated hexadecimal form with the longest zero
run compressed otherwise. -/
def IP.String (ip : IP) : String :=
  if ip.length = 0 then "<nil>"
  else if ip.length ≠ 4 ∧ ip.length ≠ 16 then String.mk ('?' :: hexString ip)
  else match ip.To4 with
    | some p4 => dotted p4
    | none => String.mk (renderGroups (longestZeroRun (groups ip) 0 none) 8 (groups ip) 0)

end net

namespace fmt

/-- An operand of `Sprintf`, for the two operand types the program formats. -/
inductive Operand where
  | string (s : String)
  | uint16 (n : Nat)

/-- The name Go prints for the operand's type. -/
def Operand.typeName : Operand → String
  | .string _ => "string"
  | .uint16 _ => "uint16"

/-- The operand in its default format (`%v`). -/
def Operand.value : Operand → String
  | .string s => s
  | .uint16 n => toString n

/-- One verb applied to one operand: `%v` is the default format, `%s` a string
verbatim, `%d` an integer in decimal, and a verb the operand's type does not
accept gives Go's `%!verb(type=value)`. The string verbs `%q`, `%x`, `%X` and
the integer verbs other than `%d` are outside this fragment, as are flags,
widths and precisions; the program uses none of them. -/
def formatVerb (verb : Char) (a : Operand) : List Char :=
  match verb, a with
  | 'v', a => a.value.data
  | 's', .string s => s.data
  | 'd', .uint16 n => (toString n).data
  | c, a => '%' :: '!' :: c :: '(' :: (a.typeName.data ++ '=' :: a.value.data ++ [')'])

/-- The tail Go appends when operands are left over: `%!(EXTRA type=value, ...)`. -/
def extra : List Operand → List Char
  | [] => []
  | as => ("%!(EXTRA " ++ ", ".intercalate (as.map fun a => a.typeName ++ "=" ++ a.value) ++ ")").data

/-- The formatting loop of `Sprintf` over the characters of the format. -/
def doPrintf : List Char → List Operand → List Char
  | [], as => extra as
  | ['%'], _ => "%!(NOVERB)".data
  | '%' :: '%' :: rest, as => '%' :: doPrintf rest as
  | '%' :: c :: rest, [] => '%' :: '!' :: c :: ("(MISSING)".data ++ doPrintf rest [])
  | '%' :: c :: rest, a :: as => formatVerb c a ++ doPrintf rest as
  | c :: rest, as => c :: doPrintf rest as

/-- Go's `fmt.Sprintf`, on the fragment described at `formatVerb`. -/
def Sprintf (format : String) (a : List Operand) : String :=
  String.mk (doPrintf format.data a)

/-- Go's `fmt.Errorf`: the error whose message is the formatted string. -/
def Errorf (format : String) (a : List Operand) : String :=
  Sprintf format a

end fmt

namespace strings

/-- The ASCII branch of `ToUpper`: `a`..`z` are shifted to `A`..`Z`. -/
def upperASCII (c : Char) : Char :=
  if 'a' ≤ c ∧ c ≤ 'z' then Char.ofNat (c.toNat - 32) else c

/-- Go's `strings.ToUpper`. A string of ASCII characters only has its lower-case
letters shifted; any other string is mapped rune by rune through
`unicode.ToUpper`, whose tables are the parameter `unicodeToUpper`. Strings
here are valid UTF-8. -/
def ToUpper (unicodeToUpper : Char → Char) (s : String) : String :=
  if s.data.all (fun c => c.toNat < 128) then String.mk (s.data.map upperASCII)
  else String.mk (s.data.map unicodeToUpper)

end strings

namespace dns

def TypeA : Nat := 1
def TypeNS : Nat := 2
def TypeCNAME : Nat := 5
def TypeSOA : Nat := 6
def TypePTR : Nat := 12
def TypeMX : Nat := 15
def TypeTXT : Nat := 16
def TypeAAAA : Nat := 28
def TypeSRV : Nat := 33
def TypeDS : Nat := 43
def TypeCAA : Nat := 257

/-- The header shared by all resource records. -/
structure RR_Header where
  Name : String
  Rrtype : Nat
  Class : Nat
  Ttl : Nat
  Rdlength : Nat

structure A where
  Hdr : RR_Header
  A : net.IP

structure AAAA where
  Hdr : RR_Header
  AAAA : net.IP

structure CNAME where
  Hdr : RR_Header
  Target : String

structure MX where
  Hdr : RR_Header
  Preference : Nat
  Mx : String

structure NS where
  Hdr : RR_Header
  Ns : String

structure PTR where
  Hdr : RR_Header
  Ptr : String

structure SRV where
  Hdr : RR_Header
  Priority : Nat
  Weight : Nat
  Port : Nat
  Target : String

structure SOA where
  Hdr : RR_Header
  Ns : String
  Mbox : String
  Serial : Nat
  Refresh : Nat
  Retry : Nat
  Expire : Nat
  Minttl : Nat

structure TXT where
  Hdr : RR_Header
  Txt : List String

structure CAA where
  Hdr : RR_Header
  Flag : Nat
  Tag : String
  Value : String

structure DS where
  Hdr : RR_Header
  KeyTag : Nat
  Algorithm : Nat
  DigestType : Nat
  Digest : String

/-- A value of the interface `dns.RR`. `nil` is the nil interface; `A p` holds a
`*dns.A`, with `p = some v` a pointer to the record `v` and `p = none` a nil
pointer, and likewise for the other ten types the program handles; `Other`
holds any other concrete record type (`*dns.RRSIG`, `*dns.OPT`, ...). -/
inductive RR where
  | nil
  | A (p : Option dns.A)
  | AAAA (p : Option dns.AAAA)
  | CNAME (p : Option dns.CNAME)
  | MX (p : Option dns.MX)
  | NS (p : Option dns.NS)
  | PTR (p : Option dns.PTR)
  | SRV (p : Option dns.SRV)
  | SOA (p : Option dns.SOA)
  | TXT (p : Option dns.TXT)
  | CAA (p : Option dns.CAA)
  | DS (p : Option dns.DS)
  | Other (Hdr : RR_Header)

/-- The record-type code of the concrete Go type held by the interface value,
for the eleven types the program handles; `none` for the nil interface and for
every other concrete type. -/
def RR.kind : RR → Option Nat
  | .nil => none
  | .A _ => some TypeA
  | .AAAA _ => some TypeAAAA
  | .CNAME _ => some TypeCNAME
  | .MX _ => some TypeMX
  | .NS _ => some TypeNS
  | .PTR _ => some TypePTR
  | .SRV _ => some TypeSRV
  | .SOA _ => some TypeSOA
  | .TXT _ => some TypeTXT
  | .CAA _ => some TypeCAA
  | .DS _ => some TypeDS
  | .Other _ => none

/-- The part of `dns.Msg` the program reads: the answer section. -/
structure Msg where
  Answer : List RR

end dns

/-! ## `internal/servers/servers.go` -/

namespace servers

structure DNSServer where
  IP : String
  Name : String
  Location : String
  CountryCode : String
  deriving DecidableEq, Repr

/-- The built-in directory of public resolvers. -/
def DNSServers : List DNSServer := [
  { IP := "91.197.68.143:53", Name := "LLC Likonet", Location := "Kyiv", CountryCode := "UA" },
  { IP := "88.221.162.33:53", Name := "Akamai International B.V.", Location := "unknown", CountryCode := "NL" },
  { IP := "194.28.33.190:53", Name := "Info-Net Uslugi Teleinformatyczne S.C.", Location := "Ostrów Wielkopolski", CountryCode := "PL" },
  { IP := "91.26.45.59:53", Name := "Deutsche Telekom AG", Location := "Siegen", CountryCode := "DE" },
  { IP := "188.116.92.133:53", Name := "SELECT SYSTEM, s.r.o.", Location := "Sumperk", CountryCode := "CZ" },
  { IP := "187.102.222.46:53", Name := "MASTERNET TELECOMUNICACAO LTD", Location := "Sao Pedro do Suacui", CountryCode := "BR" },
  { IP := "96.45.46.46:53", Name := "FORTINET", Location := "Guelph", CountryCode := "CA" },
  { IP := "80.75.35.106:53", Name := "Telekom Austria", Location := "unknown", CountryCode := "AT" },
  { IP := "170.64.147.31:53", Name := "DIGITALOCEAN-ASN", Location := "Sydney", CountryCode := "AU" },
  { IP := "98.100.136.231:53", Name := "TWC-10796-MIDWEST", Location := "Milwaukee", CountryCode := "US" },
  { IP := "24.218.117.81:53", Name := "COMCAST-7922", Location := "Hamden", CountryCode := "US" },
  { IP := "8.8.4.4:53", Name := "Google", Location := "unknown", CountryCode := "US" }]

end servers

/-! ## `main.go` -/

structure ServerResponse where
  Status : String
  Server : servers.DNSServer
  RecordType : String
  RecordValues : List String
  deriving DecidableEq, Repr

def StatusSuccess : String := "OK"
def StatusError : String := "ERROR"

/-- The map `SupportedDNSTypes`, as its list of key and value pairs. -/
def SupportedDNSTypes : List (String × Nat) := [
  ("A", dns.TypeA),
  ("AAAA", dns.TypeAAAA),
  ("CNAME", dns.TypeCNAME),
  ("MX", dns.TypeMX),
  ("NS", dns.TypeNS),
  ("PTR", dns.TypePTR),
  ("SRV", dns.TypeSRV),
  ("SOA", dns.TypeSOA),
  ("TXT", dns.TypeTXT),
  ("CAA", dns.TypeCAA),
  ("DS", dns.TypeDS)]

def getA (r : dns.RR) : List String :=
  match r with
  | .A (some v) => [v.A.String]
  | _ => []

def getAAAA (r : dns.RR) : List String :=
  match r with
  | .AAAA (some v) => [v.AAAA.String]
  | _ => []

def getCNAME (r : dns.RR) : List String :=
  match r with
  | .CNAME (some v) => [v.Target]
  | _ => []

def getMX (r : dns.RR) : List String :=
  match r with
  | .MX (some v) => [v.Mx]
  | _ => []

def getNS (r : dns.RR) : List String :=
  match r with
  | .NS (some v) => [v.Ns]
  | _ => []

def getPTR (r : dns.RR) : List String :=
  match r with
  | .PTR (some v) => [v.Ptr]
  | _ => []

def getSRV (r : dns.RR) : List String :=
  match r with
  | .SRV (some v) => [v.Target]
  | _ => []

def getSOA (r : dns.RR) : List String :=
  match r with
  | .SOA (some v) => [fmt.Sprintf "Ns: %s, Mbox: %s" [.string v.Ns, .string v.Mbox]]
  | _ => []

def getTXT (r : dns.RR) : List String :=
  match r with
  | .TXT (some v) => v.Txt
  | _ => []

def getCAA (r : dns.RR) : List String :=
  match r with
  | .CAA (some v) => [v.Value]
  | _ => []

def getDS (r : dns.RR) : List String :=
  match r with
  | .DS (some v) => [v.Digest]
  | _ => []

/-- The extractor of a record-type code; `none` is the nil function. -/
def extractFn (rtype : Nat) : Option (dns.RR → List String) :=
  if rtype = dns.TypeA then some getA
  else if rtype = dns.TypeAAAA then some getAAAA
  else if rtype = dns.TypeCNAME then some getCNAME
  else if rtype = dns.TypeMX then some getMX
  else if rtype = dns.TypeNS then some getNS
  else if rtype = dns.TypePTR then some getPTR
  else if rtype = dns.TypeSRV then some getSRV
  else if rtype = dns.TypeSOA then some getSOA
  else if rtype = dns.TypeTXT then some getTXT
  else if rtype = dns.TypeCAA then some getCAA
  else if rtype = dns.TypeDS then some getDS
  else none

/-- The transport: the result of the exchange made by the goroutine started for
position `i` of the directory, for the question (`domain`, `rtype`) sent to the
address `addr`: a decoded reply, or a transport error (timeouts included). The
client returns a non-nil message whenever it returns a nil error, so the two
cases are all there is. The position makes the results of distinct calls
independent of one another. -/
abbrev Transport := (i : Nat) → (domain : String) → (rtype : Nat) → (addr : String) →
  Except String dns.Msg

/-- A goroutine started by `queryDNSServers`, as the variables its closure
captures: the question of the message `m`, the record-type name, the extractor,
and its argument `s`. -/
structure Goroutine where
  domain : String
  rtype : Nat
  record : String
  extractAnswer : dns.RR → List String
  s : servers.DNSServer

/-- The body of the goroutine after `c.Exchange(m, s.IP)` has returned `x`: the
value it sends on the result channel. -/
def Goroutine.outcome (g : Goroutine) (x : Except String dns.Msg) : ServerResponse :=
  match x with
  | .ok r =>
    let answers := r.Answer.foldl (fun answers record => answers ++ g.extractAnswer record) []
    { Status := StatusSuccess, Server := g.s, RecordType := g.record, RecordValues := answers }
  | .error _ =>
    { Status := StatusError, Server := g.s, RecordType := g.record, RecordValues := [] }

/-- What a call of `queryDNSServers` leaves behind: the error it returns (`none`
is nil) and the goroutines it has started, in the order of the `go` statements. -/
structure Dispatch where
  err : Option String
  started : List Goroutine

/-- The function `queryDNSServers`, over the directory `DNSServers`. -/
def queryDNSServers (DNSServers : List servers.DNSServer) (domain record : String) : Dispatch :=
  match SupportedDNSTypes.lookup record with
  | none =>
    { err := some (fmt.Errorf
        "record type %s is not recognized as valid DNS record type or it's not supported"
        [.string record]),
      started := [] }
  | some rtype =>
    match extractFn rtype with
    | none =>
      { err := some (fmt.Errorf
          "function for extracting answer for record type: %d is not defined" [.uint16 rtype]),
        started := [] }
    | some extractAnswer =>
      { err := none,
        started := DNSServers.map fun s =>
          { domain := domain, rtype := rtype, record := record,
            extractAnswer := extractAnswer, s := s } }

/-- What a call of `printResults` does: it rejects the record type on standard
error, or reports the error of `queryDNSServers` on standard error, or goes on to
the loop that receives one value per resolver of the directory, with the
goroutines `started` as the senders. -/
inductive PrintResults where
  | notSupported (stderr : String)
  | queryFailed (stderr : String)
  | receiving (started : List Goroutine)

/-- The function `printResults`, up to the receive loop; `unicodeToUpper` is
the table of `unicode.ToUpper` used by `strings.ToUpper`. -/
def printResults (unicodeToUpper : Char → Char) (DNSServers : List servers.DNSServer)
    (domain record : String) : PrintResults :=
  match SupportedDNSTypes.lookup (strings.ToUpper unicodeToUpper record) with
  | none =>
    .notSupported (fmt.Sprintf "'%s' DNS record type is not supported\n" [.string record])
  | some _ =>
    match (queryDNSServers DNSServers domain record).err with
    | some err =>
      .queryFailed (fmt.Sprintf "Querying DNS serves failed, due to error: %s\name" [.string err])
    | none => .receiving (queryDNSServers DNSServers domain record).started

/-! ## Scheduling of the goroutines -/

/-- The state of one goroutine: waiting in `c.Exchange`, or holding its value
and blocked in the send on the result channel. A goroutine whose value has been
received has ended and is no longer in the state. -/
inductive TaskState where
  | Exchanging (i : Nat) (g : Goroutine)
  | Sending (i : Nat) (o : ServerResponse)

/-- A value received from the result channel, with the position of the
goroutine that sent it. -/
structure Emitted where
  task : Nat
  outcome : ServerResponse
  deriving DecidableEq, Repr

structure Sched where
  tasks : List TaskState
  sink : List Emitted

/-- The state right after `queryDNSServers` has returned nil. -/
def spawn (started : List Goroutine) : Sched :=
  { tasks := started.enum.map fun p => TaskState.Exchanging p.1 p.2, sink := [] }

/-- One scheduling step, of the goroutine at index `k` of the live ones: its
exchange returns, or its blocked send is received. `none` when there is no such
goroutine. -/
def stepAt (exch : Transport) (k : Nat) (st : Sched) : Option Sched :=
  match st.tasks.get? k with
  | none => none
  | some (.Exchanging i g) =>
    some { st with tasks := st.tasks.set k (.Sending i (g.outcome (exch i g.domain g.rtype g.s.IP))) }
  | some (.Sending i o) =>
    some { tasks := st.tasks.eraseIdx k, sink := st.sink ++ [{ task := i, outcome := o }] }

/-- The run of a schedule, a list of choices of the goroutine to advance. -/
def runSchedule (exch : Transport) : List Nat → Sched → Option Sched
  | [], st => some st
  | k :: ks, st => (stepAt exch k st).bind (runSchedule exch ks)

/-- State `st2` is reached from `st` by some schedule. -/
def Reaches (exch : Transport) (st st2 : Sched) : Prop :=
  ∃ ks, runSchedule exch ks st = some st2

/-- Every goroutine has ended. -/
def Sched.done (st : Sched) : Bool := st.tasks.isEmpty

/-- The value a live goroutine delivers when its send is received. -/
def TaskState.future (exch : Transport) : TaskState → Emitted
  | .Exchanging i g => { task := i, outcome := g.outcome (exch i g.domain g.rtype g.s.IP) }
  | .Sending i o => { task := i, outcome := o }

/-- The values received so far, followed by those still to be delivered. -/
def Sched.all (exch : Transport) (st : Sched) : List Emitted :=
  st.sink ++ st.tasks.map (TaskState.future exch)

/-- The values the goroutines `started` deliver, in directory order. -/
def expected (exch : Transport) (started : List Goroutine) : List Emitted :=
  started.enum.map fun p =>
    { task := p.1, outcome := p.2.outcome (exch p.1 p.2.domain p.2.rtype p.2.s.IP) }

/-! ## Notions used in the statements -/

/-- The record-type name is a key of the map `SupportedDNSTypes`. -/
def isKey (record : String) : Prop := record ∈ SupportedDNSTypes.map Prod.fst

instance (record : String) : Decidable (isKey record) := by
  unfold isKey; infer_instance

/-- The code is a value of the map `SupportedDNSTypes`. -/
def isValue (rtype : Nat) : Prop := rtype ∈ SupportedDNSTypes.map Prod.snd

instance (rtype : Nat) : Decidable (isValue rtype) := by
  unfold isValue; infer_instance

/-- The records held by the SOA answers, in answer order. -/
def soaAnswers (answers : List dns.RR) : List dns.SOA :=
  answers.filterMap fun r =>
    match r with
    | .SOA (some v) => some v
    | _ => none

/-- The records held by the TXT answers, in answer order. -/
def txtAnswers (answers : List dns.RR) : List dns.TXT :=
  answers.filterMap fun r =>
    match r with
    | .TXT (some v) => some v
    | _ => none

/-! ## Inputs of the examples -/

/-- A resolver for the examples: the last entry of the built-in directory. -/
def google : servers.DNSServer :=
  { IP := "8.8.4.4:53", Name := "Google", Location := "unknown", CountryCode := "US" }

/-- A transport for the examples: every exchange returns two TXT answers of two
chunks each. -/
def txtNet : Transport := fun _ _ _ _ =>
  .ok { Answer := [
    .TXT (some { Hdr := ⟨"example.org.", 16, 1, 300, 20⟩, Txt := ["v=spf1", "-all"] }),
    .TXT (some { Hdr := ⟨"example.org.", 16, 1, 300, 12⟩, Txt := ["k1", "k2"] })] }

/-- A reply for the examples: one A record, 93.184.216.34. -/
def addressReply : dns.Msg :=
  { Answer := [.A (some { Hdr := ⟨"example.com.", 1, 1, 300, 4⟩, A := [93, 184, 216, 34] })] }

/-- A transport for the examples: the exchange of position 1 times out, every
other one returns `addressReply`. -/
def exampleNet : Transport := fun i _ _ _ =>
  if i = 1 then .error "i/o timeout" else .ok addressReply

/-- A reply for the examples: one SOA record followed by one NS record. -/
def authorityReply : dns.Msg :=
  { Answer := [
      .SOA (some { Hdr := ⟨"example.com.", 6, 1, 3600, 44⟩, Ns := "ns.icann.org.",
                   Mbox := "noc.dns.icann.org.", Serial := 2024081401, Refresh := 7200,
                   Retry := 3600, Expire := 1209600, Minttl := 3600 }),
      .NS (some { Hdr := ⟨"example.com.", 2, 1, 86400, 20⟩, Ns := "a.iana-servers.net." })] }

/-- A transport for the examples: every exchange returns `authorityReply`. -/
def soaNet : Transport := fun _ _ _ _ => .ok authorityReply

/-! ## Lemmas on the scheduler -/

theorem map_set_of_eq {α β : Type} (f : α → β) :
    ∀ (l : List α) (k : Nat) (a b : α), l.get? k = some a → f b = f a →
      (l.set k b).map f = l.map f
  | [], _, _, _, h, _ => by simp at h
  | x :: l, 0, a, b, h, hf => by
    simp at h
    simp [h, hf]
  | x :: l, k + 1, a, b, h, hf => by
    simp at h
    simp [map_set_of_eq f l k a b (by simpa using h) hf]

theorem perm_cons_eraseIdx {α : Type} :
    ∀ (l : List α) (k : Nat) (a : α), l.get? k = some a → l.Perm (a :: l.eraseIdx k)
  | [], _, _, h => by simp at h
  | x :: l, 0, a, h => by
    simp at h
    simp [h]
  | x :: l, k + 1, a, h => by
    simp at h
    have ih := perm_cons_eraseIdx l k a (by simpa using h)
    simp only [List.eraseIdx_cons_succ]
    exact (List.Perm.cons x ih).trans (List.Perm.swap a x _)

theorem stepAt_all (exch : Transport) (k : Nat) (st st2 : Sched)
    (h : stepAt exch k st = some st2) : (st2.all exch).Perm (st.all exch) := by
  unfold stepAt at h
  split at h
  · exact absurd h (by simp)
  · rename_i i g hk
    injection h with h
    subst h
    simp only [Sched.all]
    rw [map_set_of_eq (TaskState.future exch) st.tasks k (.Exchanging i g)
      (.Sending i (g.outcome (exch i g.domain g.rtype g.s.IP))) hk rfl]
  · rename_i i o hk
    injection h with h
    subst h
    simp only [Sched.all, List.append_assoc]
    refine List.Perm.append_left _ ?_
    have hp := (perm_cons_eraseIdx st.tasks k _ hk).map (TaskState.future exch)
    simpa [TaskState.future] using hp.symm

theorem runSchedule_all (exch : Transport) :
    ∀ (ks : List Nat) (st st2 : Sched), runSchedule exch ks st = some st2 →
      (st2.all exch).Perm (st.all exch)
  | [], st, st2, h => by
    simp [runSchedule] at h
    subst h
    exact List.Perm.refl _
  | k :: ks, st, st2, h => by
    simp only [runSchedule] at h
    cases hs : stepAt exch k st with
    | none => simp [hs] at h
    | some st1 =>
      simp only [hs, Option.bind] at h
      exact (runSchedule_all exch ks st1 st2 h).trans (stepAt_all exch k st st1 hs)

theorem runSchedule_append (exch : Transport) :
    ∀ (ks js : List Nat) (st : Sched),
      runSchedule exch (ks ++ js) st = (runSchedule exch ks st).bind (runSchedule exch js)
  | [], js, st => by simp [runSchedule]
  | k :: ks, js, st => by
    simp only [List.cons_append, runSchedule]
    cases hs : stepAt exch k st with
    | none => simp
    | some st1 => simpa using runSchedule_append exch ks js st1

theorem Reaches.all {exch : Transport} {st st2 : Sched} (h : Reaches exch st st2) :
    (st2.all exch).Perm (st.all exch) := by
  obtain ⟨ks, hks⟩ := h
  exact runSchedule_all exch ks st st2 hks

theorem Reaches.trans {exch : Transport} {a b c : Sched} (h1 : Reaches exch a b)
    (h2 : Reaches exch b c) : Reaches exch a c := by
  obtain ⟨ks, hks⟩ := h1
  obtain ⟨js, hjs⟩ := h2
  exact ⟨ks ++ js, by simp [runSchedule_append, hks, hjs]⟩

/-- From any state, letting each live goroutine in turn finish its exchange and
deliver its value ends every goroutine. -/
theorem reaches_drained (exch : Transport) :
    ∀ (tasks : List TaskState) (sink : List Emitted),
      Reaches exch { tasks := tasks, sink := sink }
        { tasks := [], sink := sink ++ tasks.map (TaskState.future exch) }
  | [], sink => ⟨[], by simp [runSchedule]⟩
  | .Exchanging i g :: rest, sink => by
    obtain ⟨ks, hks⟩ := reaches_drained exch rest (sink ++ [TaskState.future exch (.Exchanging i g)])
    refine ⟨0 :: 0 :: ks, ?_⟩
    simp only [runSchedule, stepAt, List.get?, List.set, Option.bind, List.eraseIdx]
    simpa [TaskState.future] using hks
  | .Sending i o :: rest, sink => by
    obtain ⟨ks, hks⟩ := reaches_drained exch rest (sink ++ [TaskState.future exch (.Sending i o)])
    refine ⟨0 :: ks, ?_⟩
    simp only [runSchedule, stepAt, List.get?, Option.bind, List.eraseIdx]
    simpa [TaskState.future] using hks

theorem spawn_all (exch : Transport) (started : List Goroutine) :
    (spawn started).all exch = expected exch started := by
  simp [spawn, Sched.all, expected, TaskState.future, Function.comp_def]

theorem done_iff (st : Sched) : st.done = true ↔ st.tasks = [] := by
  simp [Sched.done, List.isEmpty_iff]

/-! ## Lemmas on the tables and on `queryDNSServers` -/

theorem lookup_none_iff {β : Type} (k : String) :
    ∀ (l : List (String × β)), l.lookup k = none ↔ k ∉ l.map Prod.fst
  | [] => by simp
  | (a, b) :: l => by
    by_cases h : k = a
    · simp [List.lookup_cons, h]
    · have hb : (k == a) = false := by simpa using h
      have ih := lookup_none_iff k l
      simp only [List.lookup_cons, hb, List.map_cons, List.mem_cons, h, false_or]
      exact ih

theorem lookup_some_mem {β : Type} (k : String) (v : β) :
    ∀ (l : List (String × β)), l.lookup k = some v → (k, v) ∈ l
  | [] => by simp
  | (a, b) :: l => by
    by_cases h : k = a
    · subst h
      simp only [List.lookup_cons_self, Option.some.injEq, List.mem_cons]
      intro hb
      exact Or.inl (by rw [hb])
    · intro hl
      have hb : (k == a) = false := by simpa using h
      have : List.lookup k l = some v := by simpa only [List.lookup_cons, hb] using hl
      exact List.mem_cons_of_mem _ (lookup_some_mem k v l this)

theorem isKey_iff (record : String) :
    isKey record ↔ ∃ rtype, SupportedDNSTypes.lookup record = some rtype := by
  unfold isKey
  rw [← not_iff_not, ← lookup_none_iff]
  cases SupportedDNSTypes.lookup record <;> simp

theorem isValue_of_lookup {record : String} {rtype : Nat}
    (h : SupportedDNSTypes.lookup record = some rtype) : isValue rtype := by
  have hm := lookup_some_mem record rtype SupportedDNSTypes h
  exact List.mem_map.mpr ⟨(record, rtype), hm, rfl⟩

theorem extractFn_isSome_of_isValue {rtype : Nat} (h : isValue rtype) :
    (extractFn rtype).isSome = true := by
  simp only [isValue, SupportedDNSTypes, List.map, List.mem_cons, List.mem_singleton,
    List.not_mem_nil, or_false] at h
  rcases h with h | h | h | h | h | h | h | h | h | h | h <;> subst h <;> decide

theorem started_of_lookup (DNSServers : List servers.DNSServer) (domain record : String)
    {rtype : Nat} (h : SupportedDNSTypes.lookup record = some rtype) :
    ∃ extractAnswer, extractFn rtype = some extractAnswer ∧
      queryDNSServers DNSServers domain record =
        { err := none,
          started := DNSServers.map fun s =>
            { domain := domain, rtype := rtype, record := record,
              extractAnswer := extractAnswer, s := s } } := by
  have hv := extractFn_isSome_of_isValue (isValue_of_lookup h)
  obtain ⟨f, hf⟩ := Option.isSome_iff_exists.mp hv
  exact ⟨f, hf, by simp [queryDNSServers, h, hf]⟩

theorem expected_server (exch : Transport) (started : List Goroutine) :
    (expected exch started).map (fun e => e.outcome.Server) = started.map (fun g => g.s) := by
  have h : (fun e : Emitted => e.outcome.Server) ∘ (fun p : Nat × Goroutine =>
      ({ task := p.1, outcome := p.2.outcome (exch p.1 p.2.domain p.2.rtype p.2.s.IP) } : Emitted))
      = (fun g : Goroutine => g.s) ∘ Prod.snd := by
    funext p
    simp only [Function.comp, Goroutine.outcome]
    split <;> rfl
  rw [expected, List.map_map, h, ← List.map_map, List.enum_map_snd]

theorem expected_task (exch : Transport) (started : List Goroutine) :
    (expected exch started).map (fun e => e.task) = List.range started.length := by
  rw [expected, List.map_map, ← List.enum_map_fst]
  rfl

theorem expected_length (exch : Transport) (started : List Goroutine) :
    (expected exch started).length = started.length := by
  simp [expected]

/-- In any state reached after the dispatch, the values received and those still
to be delivered are together the expected ones. -/
theorem reaches_spawn_all {exch : Transport} {started : List Goroutine} {st : Sched}
    (h : Reaches exch (spawn started) st) : (st.all exch).Perm (expected exch started) := by
  have := h.all
  rwa [spawn_all] at this

/-- A value received from the goroutine at position `i` is the one computed by
the goroutine started at that position from its own exchange result. -/
theorem sink_mem_spec {exch : Transport} {started : List Goroutine} {st : Sched}
    (h : Reaches exch (spawn started) st) {e : Emitted} (he : e ∈ st.sink) :
    ∃ g, started[e.task]? = some g ∧
      e.outcome = g.outcome (exch e.task g.domain g.rtype g.s.IP) := by
  have hm : e ∈ expected exch started :=
    (reaches_spawn_all h).subset (by simp [Sched.all, he])
  simp only [expected, List.mem_map] at hm
  obtain ⟨p, hp, rfl⟩ := hm
  exact ⟨p.2, List.mem_enum_iff_getElem?.mp hp, rfl⟩

theorem length_le_of_all {exch : Transport} {started : List Goroutine} {st : Sched}
    (h : Reaches exch (spawn started) st) : st.sink.length ≤ started.length := by
  have hp := (reaches_spawn_all h).length_eq
  rw [expected_length] at hp
  simp only [Sched.all, List.length_append, List.length_map] at hp
  omega

theorem sink_perm_of_done {exch : Transport} {started : List Goroutine} {fin : Sched}
    (h : Reaches exch (spawn started) fin) (hd : fin.done = true) :
    fin.sink.Perm (expected exch started) := by
  have hp := reaches_spawn_all h
  rw [done_iff] at hd
  simpa [Sched.all, hd] using hp

theorem reaches_done (exch : Transport) (st : Sched) :
    ∃ fin, Reaches exch st fin ∧ fin.done = true :=
  ⟨_, reaches_drained exch st.tasks st.sink, rfl⟩

/-- Once all goroutines have ended, the value of each of them has been received. -/
theorem done_sink_mem {exch : Transport} {started : List Goroutine} {fin : Sched}
    (h : Reaches exch (spawn started) fin) (hd : fin.done = true) {i : Nat} {g : Goroutine}
    (hg : started[i]? = some g) :
    ({ task := i, outcome := g.outcome (exch i g.domain g.rtype g.s.IP) } : Emitted) ∈ fin.sink := by
  refine (sink_perm_of_done h hd).symm.subset ?_
  simp only [expected, List.mem_map]
  exact ⟨(i, g), List.mem_enum_iff_getElem?.mpr hg, rfl⟩

/-- The value received from position `e.task` after a dispatch for a supported
record type, in terms of the directory entry at that position and of the result
of its exchange. -/
theorem emitted_spec {DNSServers : List servers.DNSServer} {domain record : String}
    {rtype : Nat} {exch : Transport} {st : Sched} {e : Emitted}
    (hk : SupportedDNSTypes.lookup record = some rtype)
    (h : Reaches exch (spawn (queryDNSServers DNSServers domain record).started) st)
    (he : e ∈ st.sink) :
    ∃ extractAnswer s, extractFn rtype = some extractAnswer ∧ DNSServers[e.task]? = some s ∧
      e.outcome = Goroutine.outcome
        { domain := domain, rtype := rtype, record := record,
          extractAnswer := extractAnswer, s := s } (exch e.task domain rtype s.IP) := by
  obtain ⟨f, hf, hq⟩ := started_of_lookup DNSServers domain record hk
  rw [hq] at h
  obtain ⟨g, hg, ho⟩ := sink_mem_spec h he
  simp only [List.getElem?_map, Option.map_eq_some'] at hg
  obtain ⟨s, hs, rfl⟩ := hg
  exact ⟨f, s, hf, hs, ho⟩

theorem err_of_isKey (DNSServers : List servers.DNSServer) (domain record : String)
    (h : isKey record) : (queryDNSServers DNSServers domain record).err = none := by
  obtain ⟨rtype, hk⟩ := (isKey_iff record).mp h
  obtain ⟨f, -, hq⟩ := started_of_lookup DNSServers domain record hk
  rw [hq]

theorem dispatch_of_not_isKey (DNSServers : List servers.DNSServer) (domain record : String)
    (h : ¬ isKey record) :
    queryDNSServers DNSServers domain record =
      { err := some (fmt.Errorf
          "record type %s is not recognized as valid DNS record type or it's not supported"
          [.string record]),
        started := [] } := by
  have hn := (lookup_none_iff record SupportedDNSTypes).mpr h
  simp [queryDNSServers, hn]

/-! ## The dispatcher: cardinality and validation -/

/-- C1. For every key `record` of `SupportedDNSTypes`, every domain, every
resolver directory (the empty one included) and every assignment `exch` of exchange
results, `queryDNSServers` returns no error and starts one goroutine per resolver.
In every state reached afterwards at most N values have been received and all
goroutines can still run to their end; once they have ended, exactly N values have
been received, one from each position of the directory, and their `Server` fields
are a permutation of the directory. -/
theorem queryDNSServers_one_outcome_per_resolver (DNSServers : List servers.DNSServer)
    (domain record : String) (exch : Transport) (h : isKey record) :
    (queryDNSServers DNSServers domain record).err = none ∧
    (queryDNSServers DNSServers domain record).started.length = DNSServers.length ∧
    (∀ st, Reaches exch (spawn (queryDNSServers DNSServers domain record).started) st →
      st.sink.length ≤ DNSServers.length ∧ ∃ fin, Reaches exch st fin ∧ fin.done = true) ∧
    (∀ fin, Reaches exch (spawn (queryDNSServers DNSServers domain record).started) fin →
      fin.done = true →
      fin.sink.length = DNSServers.length ∧
      (fin.sink.map fun e => e.outcome.Server).Perm DNSServers ∧
      (fin.sink.map fun e => e.task).Perm (List.range DNSServers.length)) := by
  obtain ⟨rtype, hk⟩ := (isKey_iff record).mp h
  obtain ⟨f, -, hq⟩ := started_of_lookup DNSServers domain record hk
  rw [hq]
  refine ⟨rfl, by simp, ?_, ?_⟩
  · intro st hst
    exact ⟨by simpa using length_le_of_all hst, reaches_done exch st⟩
  · intro fin hfin hd
    have hp := sink_perm_of_done hfin hd
    refine ⟨?_, ?_, ?_⟩
    · simpa [expected_length] using hp.length_eq
    · have := hp.map (fun e => e.outcome.Server)
      rw [expected_server] at this
      simpa [Function.comp_def] using this
    · have := hp.map (fun e => e.task)
      rw [expected_task] at this
      simpa using this

/-- An instance of C1: a dispatch for `A` over the built-in directory, whatever
the transport does, ends with twelve values received. -/
theorem queryDNSServers_one_outcome_per_resolver_witness :
    isKey "A" ∧
    (queryDNSServers servers.DNSServers "example.com" "A").err = none ∧
    ∃ fin, Reaches (fun _ _ _ _ => .error "i/o timeout")
        (spawn (queryDNSServers servers.DNSServers "example.com" "A").started) fin ∧
      fin.done = true ∧ fin.sink.length = 12 := by
  have h := queryDNSServers_one_outcome_per_resolver servers.DNSServers "example.com" "A"
    (fun _ _ _ _ => .error "i/o timeout") (by decide)
  obtain ⟨fin, hfin, hd⟩ := (h.2.2.1 _ ⟨[], rfl⟩).2
  exact ⟨by decide, h.1, fin, hfin, hd, (h.2.2.2 fin hfin hd).1⟩

/-- C2. For every record-type name that is not a key of `SupportedDNSTypes`, and
every domain and directory, `queryDNSServers` returns the error "record type ...
is not recognized ...", has started no goroutine, and no value is ever received
from the result channel. -/
theorem queryDNSServers_unsupported (DNSServers : List servers.DNSServer)
    (domain record : String) (exch : Transport) (h : ¬ isKey record) :
    (queryDNSServers DNSServers domain record).err = some (fmt.Errorf
      "record type %s is not recognized as valid DNS record type or it's not supported"
      [.string record]) ∧
    (queryDNSServers DNSServers domain record).started = [] ∧
    (∀ st, Reaches exch (spawn (queryDNSServers DNSServers domain record).started) st →
      st.sink = [] ∧ st.tasks = []) := by
  rw [dispatch_of_not_isKey DNSServers domain record h]
  refine ⟨rfl, rfl, ?_⟩
  intro st hst
  have hp := (reaches_spawn_all hst).length_eq
  simp only [expected, List.enum_nil, List.map_nil, List.length_nil, Sched.all,
    List.length_append, List.length_map] at hp
  exact ⟨List.length_eq_zero.mp (by omega), List.length_eq_zero.mp (by omega)⟩

/-- An instance of C2: the lower-case name `mx` is not a key. -/
theorem queryDNSServers_unsupported_witness :
    ¬ isKey "mx" ∧
    (queryDNSServers servers.DNSServers "example.com" "mx").err = some
      "record type mx is not recognized as valid DNS record type or it's not supported" ∧
    (queryDNSServers servers.DNSServers "example.com" "mx").started = [] := by
  have h := queryDNSServers_unsupported servers.DNSServers "example.com" "mx"
    (fun _ _ _ _ => .error "i/o timeout") (by decide)
  exact ⟨by decide, h.1.trans (by decide), h.2.1⟩

/-- C9. Every record-type code that is a value of `SupportedDNSTypes` has an
extractor in `extractFn`; hence whenever `queryDNSServers` gets past the lookup of
the name, the extractor it fetches is not nil, the error it returns is never the
"function for extracting answer ... is not defined" one, and it returns an error
if and only if the name is not a key of `SupportedDNSTypes`. -/
theorem extractFn_defined_on_supported :
    (∀ rtype, isValue rtype → (extractFn rtype).isSome = true) ∧
    (∀ record rtype, SupportedDNSTypes.lookup record = some rtype → extractFn rtype ≠ none) ∧
    (∀ (DNSServers : List servers.DNSServer) (domain record : String) (rtype : Nat),
      (queryDNSServers DNSServers domain record).err ≠ some (fmt.Errorf
        "function for extracting answer for record type: %d is not defined" [.uint16 rtype])) ∧
    (∀ (DNSServers : List servers.DNSServer) (domain record : String),
      (queryDNSServers DNSServers domain record).err.isSome = true ↔ ¬ isKey record) := by
  refine ⟨fun rtype h => extractFn_isSome_of_isValue h, ?_, ?_, ?_⟩
  · intro record rtype hk hn
    have := extractFn_isSome_of_isValue (isValue_of_lookup hk)
    simp [hn] at this
  · intro DNSServers domain record rtype
    by_cases hkey : isKey record
    · rw [err_of_isKey DNSServers domain record hkey]
      simp
    · rw [dispatch_of_not_isKey DNSServers domain record hkey]
      intro heq
      have hd := congrArg (fun m : String => m.data.head?) (Option.some.inj heq)
      have h1 : (fmt.Errorf
          "record type %s is not recognized as valid DNS record type or it's not supported"
          [.string record]).data.head? = some 'r' := rfl
      have h2 : (fmt.Errorf
          "function for extracting answer for record type: %d is not defined"
          [.uint16 rtype]).data.head? = some 'f' := rfl
      simp only [h1, h2] at hd
      exact absurd hd (by decide)
  · intro DNSServers domain record
    by_cases hkey : isKey record
    · simp [err_of_isKey DNSServers domain record hkey, hkey]
    · simp [dispatch_of_not_isKey DNSServers domain record hkey, hkey]

/-! ## The extractor table -/

theorem foldl_append_eq_flatten {α β : Type} (f : α → List β) :
    ∀ (l : List α) (acc : List β),
      l.foldl (fun answers record => answers ++ f record) acc = acc ++ (l.map f).flatten
  | [], acc => by simp
  | x :: l, acc => by simp [foldl_append_eq_flatten f l]

/-- The value sent after a successful exchange: the extractor applied to every
answer, the results concatenated in answer order. -/
theorem outcome_ok (g : Goroutine) (r : dns.Msg) :
    g.outcome (.ok r) =
      { Status := StatusSuccess, Server := g.s, RecordType := g.record,
        RecordValues := (r.Answer.map g.extractAnswer).flatten } := by
  simp [Goroutine.outcome, foldl_append_eq_flatten]

theorem flatten_map_eq_nil {α β : Type} (f : α → List β) :
    ∀ (l : List α), (∀ a ∈ l, f a = []) → (l.map f).flatten = []
  | [], _ => rfl
  | x :: l, h => by
    simp [h x (List.mem_cons_self x l),
      flatten_map_eq_nil f l (fun a ha => h a (List.mem_cons_of_mem x ha))]

/-- An extractor gives nothing for an answer whose concrete type is not the one
of the code it is registered for. -/
theorem extractFn_mismatch {rtype : Nat} (h : isValue rtype) (r : dns.RR)
    (hr : r.kind ≠ some rtype) : ∃ f, extractFn rtype = some f ∧ f r = [] := by
  simp only [isValue, SupportedDNSTypes, List.map, List.mem_cons, List.mem_singleton,
    List.not_mem_nil, or_false] at h
  rcases h with h | h | h | h | h | h | h | h | h | h | h <;> subst h
  · exact ⟨getA, rfl, by cases r <;> simp_all [dns.RR.kind, getA]⟩
  · exact ⟨getAAAA, rfl, by cases r <;> simp_all [dns.RR.kind, getAAAA]⟩
  · exact ⟨getCNAME, rfl, by cases r <;> simp_all [dns.RR.kind, getCNAME]⟩
  · exact ⟨getMX, rfl, by cases r <;> simp_all [dns.RR.kind, getMX]⟩
  · exact ⟨getNS, rfl, by cases r <;> simp_all [dns.RR.kind, getNS]⟩
  · exact ⟨getPTR, rfl, by cases r <;> simp_all [dns.RR.kind, getPTR]⟩
  · exact ⟨getSRV, rfl, by cases r <;> simp_all [dns.RR.kind, getSRV]⟩
  · exact ⟨getSOA, rfl, by cases r <;> simp_all [dns.RR.kind, getSOA]⟩
  · exact ⟨getTXT, rfl, by cases r <;> simp_all [dns.RR.kind, getTXT]⟩
  · exact ⟨getCAA, rfl, by cases r <;> simp_all [dns.RR.kind, getCAA]⟩
  · exact ⟨getDS, rfl, by cases r <;> simp_all [dns.RR.kind, getDS]⟩

/-- C5. For every supported record type and every answer whose concrete kind is
not the kind of that type, the extractor of the type is defined and returns the
empty sequence; so a goroutine whose exchange succeeds with answers that are all
of another kind than the requested one sends the value with status
`StatusSuccess` and no record values. -/
theorem mismatched_answers_yield_success_without_values :
    (∀ rtype, isValue rtype → ∀ r : dns.RR, r.kind ≠ some rtype →
      ∃ f, extractFn rtype = some f ∧ f r = []) ∧
    (∀ (DNSServers : List servers.DNSServer) (domain record : String) (rtype : Nat)
      (exch : Transport) (st : Sched) (e : Emitted) (s : servers.DNSServer) (r : dns.Msg),
      SupportedDNSTypes.lookup record = some rtype →
      Reaches exch (spawn (queryDNSServers DNSServers domain record).started) st →
      e ∈ st.sink → DNSServers[e.task]? = some s →
      exch e.task domain rtype s.IP = .ok r →
      (∀ a ∈ r.Answer, a.kind ≠ some rtype) →
      e.outcome =
        { Status := StatusSuccess, Server := s, RecordType := record, RecordValues := [] }) := by
  refine ⟨fun rtype h r hr => extractFn_mismatch h r hr, ?_⟩
  intro DNSServers domain record rtype exch st e s r hk hst he hs hx hall
  obtain ⟨f, s2, hf, hs2, ho⟩ := emitted_spec hk hst he
  rw [hs] at hs2
  cases hs2
  rw [ho, hx, outcome_ok]
  have hnil : ∀ a ∈ r.Answer, f a = [] := by
    intro a ha
    obtain ⟨f2, hf2, h0⟩ := extractFn_mismatch (isValue_of_lookup hk) a (hall a ha)
    rw [hf] at hf2
    cases hf2
    exact h0
  simp [flatten_map_eq_nil f r.Answer hnil]

/-- An instance of C5: MX is asked for and the reply holds an A record only. -/
theorem mismatched_answers_yield_success_without_values_witness :
    ∃ fin e, Reaches exampleNet
        (spawn (queryDNSServers [google] "example.com" "MX").started) fin ∧
      e ∈ fin.sink ∧
      e.outcome = { Status := "OK", Server := google, RecordType := "MX", RecordValues := [] } := by
  obtain ⟨fin, hfin, hd⟩ := reaches_done exampleNet
    (spawn (queryDNSServers [google] "example.com" "MX").started)
  have hm := done_sink_mem hfin hd (i := 0)
    (g := { domain := "example.com", rtype := dns.TypeMX, record := "MX",
            extractAnswer := getMX, s := google }) rfl
  have hkind : ∀ a ∈ addressReply.Answer, a.kind ≠ some dns.TypeMX := by
    intro a ha
    simp only [addressReply, List.mem_singleton] at ha
    subst ha
    decide
  have h := mismatched_answers_yield_success_without_values.2 [google] "example.com" "MX"
    dns.TypeMX exampleNet fin _ google addressReply (by decide) hfin hm rfl rfl hkind
  exact ⟨fin, _, hfin, hm, h⟩

/-- C8. For an answer holding a record of the requested type among A, AAAA,
CNAME, MX, NS, PTR, SRV, CAA and DS, the extractor registered for the type returns
exactly one element: the textual IP address for A and AAAA, the `Target` for CNAME
and SRV, the `Mx` name for MX, the `Ns` name for NS, the `Ptr` name for PTR, the
`Value` for CAA and the `Digest` for DS. -/
theorem matching_answer_yields_one_value :
    (∀ v : dns.A, (extractFn dns.TypeA).map (fun f => f (.A (some v))) = some [v.A.String]) ∧
    (∀ v : dns.AAAA,
      (extractFn dns.TypeAAAA).map (fun f => f (.AAAA (some v))) = some [v.AAAA.String]) ∧
    (∀ v : dns.CNAME,
      (extractFn dns.TypeCNAME).map (fun f => f (.CNAME (some v))) = some [v.Target]) ∧
    (∀ v : dns.MX, (extractFn dns.TypeMX).map (fun f => f (.MX (some v))) = some [v.Mx]) ∧
    (∀ v : dns.NS, (extractFn dns.TypeNS).map (fun f => f (.NS (some v))) = some [v.Ns]) ∧
    (∀ v : dns.PTR, (extractFn dns.TypePTR).map (fun f => f (.PTR (some v))) = some [v.Ptr]) ∧
    (∀ v : dns.SRV, (extractFn dns.TypeSRV).map (fun f => f (.SRV (some v))) = some [v.Target]) ∧
    (∀ v : dns.CAA, (extractFn dns.TypeCAA).map (fun f => f (.CAA (some v))) = some [v.Value]) ∧
    (∀ v : dns.DS, (extractFn dns.TypeDS).map (fun f => f (.DS (some v))) = some [v.Digest]) :=
  ⟨fun _ => rfl, fun _ => rfl, fun _ => rfl, fun _ => rfl, fun _ => rfl, fun _ => rfl,
    fun _ => rfl, fun _ => rfl, fun _ => rfl⟩

/-- The format of `getSOA` applied to two strings. -/
theorem Sprintf_Ns_Mbox (ns mbox : String) :
    fmt.Sprintf "Ns: %s, Mbox: %s" [.string ns, .string mbox]
      = "Ns: " ++ ns ++ ", Mbox: " ++ mbox := by
  apply String.ext
  simp [fmt.Sprintf, fmt.doPrintf, fmt.formatVerb, fmt.extra, String.data_append]

theorem map_getSOA_flatten :
    ∀ answers : List dns.RR, (answers.map getSOA).flatten =
      (soaAnswers answers).map fun v => "Ns: " ++ v.Ns ++ ", Mbox: " ++ v.Mbox
  | [] => rfl
  | r :: answers => by
    have ih := map_getSOA_flatten answers
    simp only [List.map_cons, List.flatten_cons, ih, soaAnswers, List.filterMap_cons]
    cases r with
    | SOA p =>
      cases p with
      | none => rfl
      | some v => simp [getSOA, Sprintf_Ns_Mbox]
    | _ => rfl

/-- C7. For every SOA answer record, with primary name server `Ns` and
responsible mailbox `Mbox`, `getSOA` returns exactly one string, `Ns: ` followed
by the name server, `, Mbox: ` and the mailbox; so a successful SOA exchange gives
one such string per SOA answer, in answer order, and nothing for other answers. -/
theorem getSOA_formats_ns_and_mbox :
    (∀ v : dns.SOA, getSOA (.SOA (some v)) = ["Ns: " ++ v.Ns ++ ", Mbox: " ++ v.Mbox]) ∧
    extractFn dns.TypeSOA = some getSOA ∧
    (∀ (DNSServers : List servers.DNSServer) (domain : String) (exch : Transport) (st : Sched)
      (e : Emitted) (s : servers.DNSServer) (r : dns.Msg),
      Reaches exch (spawn (queryDNSServers DNSServers domain "SOA").started) st →
      e ∈ st.sink → DNSServers[e.task]? = some s →
      exch e.task domain dns.TypeSOA s.IP = .ok r →
      e.outcome =
        { Status := StatusSuccess, Server := s, RecordType := "SOA",
          RecordValues :=
            (soaAnswers r.Answer).map fun v => "Ns: " ++ v.Ns ++ ", Mbox: " ++ v.Mbox }) := by
  refine ⟨fun v => by simp [getSOA, Sprintf_Ns_Mbox], rfl, ?_⟩
  intro DNSServers domain exch st e s r hst he hs hx
  obtain ⟨f, s2, hf, hs2, ho⟩ := emitted_spec
    (show SupportedDNSTypes.lookup "SOA" = some dns.TypeSOA by decide) hst he
  rw [hs] at hs2
  cases hs2
  have hf2 : f = getSOA := Option.some.inj (hf.symm.trans rfl)
  subst hf2
  rw [ho, hx, outcome_ok]
  simp [map_getSOA_flatten]

/-- An instance of C7: a reply with one SOA record and one NS record. -/
theorem getSOA_formats_ns_and_mbox_witness :
    ∃ fin e, Reaches soaNet
        (spawn (queryDNSServers [google] "example.com" "SOA").started) fin ∧
      e ∈ fin.sink ∧
      e.outcome.RecordValues = ["Ns: ns.icann.org., Mbox: noc.dns.icann.org."] := by
  obtain ⟨fin, hfin, hd⟩ := reaches_done soaNet
    (spawn (queryDNSServers [google] "example.com" "SOA").started)
  have hm := done_sink_mem hfin hd (i := 0)
    (g := { domain := "example.com", rtype := dns.TypeSOA, record := "SOA",
            extractAnswer := getSOA, s := google }) rfl
  have h := getSOA_formats_ns_and_mbox.2.2 [google] "example.com" soaNet fin _ google
    authorityReply hfin hm rfl rfl
  refine ⟨fin, _, hfin, hm, ?_⟩
  rw [h]
  decide

theorem map_getTXT_flatten :
    ∀ answers : List dns.RR, (answers.map getTXT).flatten =
      ((txtAnswers answers).map fun v => v.Txt).flatten
  | [] => rfl
  | r :: answers => by
    have ih := map_getTXT_flatten answers
    simp only [List.map_cons, List.flatten_cons, ih, txtAnswers, List.filterMap_cons]
    cases r with
    | TXT p =>
      cases p with
      | none => rfl
      | some v => simp [getTXT]
    | _ => rfl

/-- C6. For record type TXT and a successful exchange with answers `r.Answer`,
the value sent has as record values the concatenation, in answer order, of the
whole chunk list of each answer that is a TXT record, other answers contributing
nothing; two TXT answers of two chunks each give the four chunks in order. -/
theorem txt_values_concatenate_chunks (DNSServers : List servers.DNSServer) (domain : String)
    (exch : Transport) (st : Sched) (e : Emitted) (s : servers.DNSServer) (r : dns.Msg)
    (hst : Reaches exch (spawn (queryDNSServers DNSServers domain "TXT").started) st)
    (he : e ∈ st.sink) (hs : DNSServers[e.task]? = some s)
    (hx : exch e.task domain dns.TypeTXT s.IP = .ok r) :
    e.outcome =
      { Status := StatusSuccess, Server := s, RecordType := "TXT",
        RecordValues := ((txtAnswers r.Answer).map fun v => v.Txt).flatten } ∧
    (∀ (h1 h2 : dns.RR_Header) (a b c d : String),
      r.Answer = [.TXT (some { Hdr := h1, Txt := [a, b] }),
        .TXT (some { Hdr := h2, Txt := [c, d] })] →
      e.outcome.RecordValues = [a, b, c, d] ∧ e.outcome.RecordValues.length = 4) := by
  obtain ⟨f, s2, hf, hs2, ho⟩ := emitted_spec
    (show SupportedDNSTypes.lookup "TXT" = some dns.TypeTXT by decide) hst he
  rw [hs] at hs2
  cases hs2
  have hf2 : f = getTXT := Option.some.inj (hf.symm.trans rfl)
  subst hf2
  have hout : e.outcome =
      { Status := StatusSuccess, Server := s, RecordType := "TXT",
        RecordValues := ((txtAnswers r.Answer).map fun v => v.Txt).flatten } := by
    rw [ho, hx, outcome_ok]
    simp [map_getTXT_flatten]
  refine ⟨hout, ?_⟩
  intro h1 h2 a b c d hr
  rw [hout, hr]
  exact ⟨rfl, rfl⟩

/-- An instance of C6: one resolver returning two TXT answers of two chunks. -/
theorem txt_values_concatenate_chunks_witness :
    ∃ fin e, Reaches txtNet
        (spawn (queryDNSServers [google] "example.org" "TXT").started) fin ∧
      e ∈ fin.sink ∧ e.outcome.RecordValues = ["v=spf1", "-all", "k1", "k2"] := by
  obtain ⟨fin, hfin, hd⟩ := reaches_done txtNet
    (spawn (queryDNSServers [google] "example.org" "TXT").started)
  have hm := done_sink_mem hfin hd (i := 0)
    (g := { domain := "example.org", rtype := dns.TypeTXT, record := "TXT",
            extractAnswer := getTXT, s := google }) rfl
  have h := txt_values_concatenate_chunks [google] "example.org" txtNet fin _
    google _ hfin hm rfl rfl
  exact ⟨fin, _, hfin, hm, (h.2 _ _ _ _ _ _ rfl).1⟩

/-! ## The values sent by the goroutines -/

theorem outcome_error (g : Goroutine) (msg : String) :
    g.outcome (.error msg) =
      { Status := StatusError, Server := g.s, RecordType := g.record, RecordValues := [] } := rfl

theorem outcome_values_of_error (g : Goroutine) (x : Except String dns.Msg)
    (h : (g.outcome x).Status = StatusError) : (g.outcome x).RecordValues = [] := by
  cases x with
  | error msg => rfl
  | ok r =>
    rw [outcome_ok] at h
    have hne : StatusSuccess ≠ StatusError := by decide
    exact absurd h hne

/-- C3. After a dispatch for a supported record type: every value received with
status `StatusError` has no record values; and the goroutine of a resolver whose
exchange returns a transport error sends exactly the value with status
`StatusError`, that resolver, the record-type name passed to the dispatcher and
no record values: any value received from its position is that one, and it has
been received once all goroutines have ended. -/
theorem error_outcome_has_no_values (DNSServers : List servers.DNSServer)
    (domain record : String) (rtype : Nat) (exch : Transport)
    (hk : SupportedDNSTypes.lookup record = some rtype) :
    (∀ st e, Reaches exch (spawn (queryDNSServers DNSServers domain record).started) st →
      e ∈ st.sink → e.outcome.Status = StatusError → e.outcome.RecordValues = []) ∧
    (∀ i s msg, DNSServers[i]? = some s → exch i domain rtype s.IP = .error msg →
      (∀ st e, Reaches exch (spawn (queryDNSServers DNSServers domain record).started) st →
        e ∈ st.sink → e.task = i →
        e.outcome =
          { Status := StatusError, Server := s, RecordType := record, RecordValues := [] }) ∧
      (∀ fin, Reaches exch (spawn (queryDNSServers DNSServers domain record).started) fin →
        fin.done = true →
        ({ task := i,
           outcome := { Status := StatusError, Server := s, RecordType := record,
                        RecordValues := [] } } : Emitted) ∈ fin.sink)) := by
  constructor
  · intro st e hst he hstatus
    obtain ⟨f, s, -, -, ho⟩ := emitted_spec hk hst he
    rw [ho] at hstatus ⊢
    exact outcome_values_of_error _ _ hstatus
  · intro i s msg hs hx
    constructor
    · intro st e hst he hi
      subst hi
      obtain ⟨f, s2, -, hs2, ho⟩ := emitted_spec hk hst he
      rw [hs] at hs2
      cases hs2
      rw [ho, hx, outcome_error]
    · intro fin hfin hd
      obtain ⟨f, -, hq⟩ := started_of_lookup DNSServers domain record hk
      rw [hq] at hfin
      have hm := done_sink_mem hfin hd (i := i)
        (g := { domain := domain, rtype := rtype, record := record, extractAnswer := f, s := s })
        (by simp [hs])
      simpa [hx, outcome_error] using hm

/-- An instance of C3: over the built-in directory, the second resolver times
out and its error value is received. -/
theorem error_outcome_has_no_values_witness :
    SupportedDNSTypes.lookup "A" = some dns.TypeA ∧
    ∃ fin, Reaches exampleNet
        (spawn (queryDNSServers servers.DNSServers "example.com" "A").started) fin ∧
      ({ task := 1,
         outcome := { Status := "ERROR",
                      Server := { IP := "88.221.162.33:53", Name := "Akamai International B.V.",
                                  Location := "unknown", CountryCode := "NL" },
                      RecordType := "A", RecordValues := [] } } : Emitted) ∈ fin.sink := by
  have h := error_outcome_has_no_values servers.DNSServers "example.com" "A" dns.TypeA
    exampleNet (by decide)
  obtain ⟨fin, hfin, hd⟩ := reaches_done exampleNet
    (spawn (queryDNSServers servers.DNSServers "example.com" "A").started)
  exact ⟨by decide, fin, hfin, (h.2 1 _ "i/o timeout" rfl rfl).2 fin hfin hd⟩

/-- C4. The value sent for a resolver depends only on the domain, the
record-type name, that resolver and the result of its own exchange: for a
supported type it is one function of these, whatever the directory and the other
exchanges; so in two runs over the same directory, domain and type whose
transports agree on the exchange of position `i`, the values received from
position `i` are equal. For type A and three resolvers of which the first and
the third answer 93.184.216.34 and the second fails, the values received once
all goroutines have ended are, in some order, two successes with
`["93.184.216.34"]` and one error without values. -/
theorem outcome_depends_only_on_own_exchange :
    (∀ (record : String) (rtype : Nat), SupportedDNSTypes.lookup record = some rtype →
      ∃ F : servers.DNSServer → Except String dns.Msg → ServerResponse,
        ∀ (DNSServers : List servers.DNSServer) (domain : String) (exch : Transport)
          (st : Sched) (e : Emitted) (s : servers.DNSServer),
          Reaches exch (spawn (queryDNSServers DNSServers domain record).started) st →
          e ∈ st.sink → DNSServers[e.task]? = some s →
          e.outcome = F s (exch e.task domain rtype s.IP)) ∧
    (∀ (DNSServers : List servers.DNSServer) (domain record : String) (rtype : Nat)
      (net1 net2 : Transport) (i : Nat) (s : servers.DNSServer) (st1 st2 : Sched)
      (e1 e2 : Emitted),
      SupportedDNSTypes.lookup record = some rtype →
      DNSServers[i]? = some s →
      net1 i domain rtype s.IP = net2 i domain rtype s.IP →
      Reaches net1 (spawn (queryDNSServers DNSServers domain record).started) st1 →
      Reaches net2 (spawn (queryDNSServers DNSServers domain record).started) st2 →
      e1 ∈ st1.sink → e2 ∈ st2.sink → e1.task = i → e2.task = i →
      e1.outcome = e2.outcome) ∧
    (∀ (s1 s2 s3 : servers.DNSServer) (domain : String) (exch : Transport)
      (h1 h3 : dns.RR_Header) (msg : String) (fin : Sched),
      exch 0 domain dns.TypeA s1.IP =
        .ok { Answer := [.A (some { Hdr := h1, A := [93, 184, 216, 34] })] } →
      exch 1 domain dns.TypeA s2.IP = .error msg →
      exch 2 domain dns.TypeA s3.IP =
        .ok { Answer := [.A (some { Hdr := h3, A := [93, 184, 216, 34] })] } →
      Reaches exch (spawn (queryDNSServers [s1, s2, s3] domain "A").started) fin →
      fin.done = true →
      (fin.sink.map fun e => e.outcome).Perm [
        { Status := StatusSuccess, Server := s1, RecordType := "A",
          RecordValues := ["93.184.216.34"] },
        { Status := StatusError, Server := s2, RecordType := "A", RecordValues := [] },
        { Status := StatusSuccess, Server := s3, RecordType := "A",
          RecordValues := ["93.184.216.34"] }]) := by
  refine ⟨?_, ?_, ?_⟩
  · intro record rtype hk
    obtain ⟨f, hf⟩ := Option.isSome_iff_exists.mp
      (extractFn_isSome_of_isValue (isValue_of_lookup hk))
    refine ⟨fun s x => Goroutine.outcome
      { domain := "", rtype := rtype, record := record, extractAnswer := f, s := s } x, ?_⟩
    intro DNSServers domain exch st e s hst he hs
    obtain ⟨f2, s2, hf2, hs2, ho⟩ := emitted_spec hk hst he
    rw [hs] at hs2
    cases hs2
    rw [hf] at hf2
    cases hf2
    rw [ho]
    cases exch e.task domain rtype s.IP <;> rfl
  · intro DNSServers domain record rtype net1 net2 i s st1 st2 e1 e2 hk hs hagree h1 h2
      he1 he2 ht1 ht2
    subst ht1
    obtain ⟨f1, s1, hf1, hs1, ho1⟩ := emitted_spec hk h1 he1
    obtain ⟨f2, s2, hf2, hs2, ho2⟩ := emitted_spec hk h2 he2
    rw [hs] at hs1
    cases hs1
    rw [ht2, hs] at hs2
    cases hs2
    rw [hf1] at hf2
    cases hf2
    rw [ho1, ho2, ht2, hagree]
  · intro s1 s2 s3 domain exch h1 h3 msg fin hn1 hn2 hn3 hfin hd
    have hp := (sink_perm_of_done hfin hd).map (fun e => e.outcome)
    have hq : (queryDNSServers [s1, s2, s3] domain "A").started =
        [{ domain := domain, rtype := dns.TypeA, record := "A", extractAnswer := getA, s := s1 },
         { domain := domain, rtype := dns.TypeA, record := "A", extractAnswer := getA, s := s2 },
         { domain := domain, rtype := dns.TypeA, record := "A", extractAnswer := getA, s := s3 }] :=
      rfl
    have hip : net.IP.String [93, 184, 216, 34] = "93.184.216.34" := by decide
    rw [hq] at hp
    simpa [expected, List.enum, List.enumFrom, hn1, hn2, hn3, outcome_ok, outcome_error, getA,
      hip] using hp

/-- An instance of the scenario of C4, over the first three resolvers of the
built-in directory. -/
theorem outcome_depends_only_on_own_exchange_witness :
    ∃ fin, Reaches exampleNet
        (spawn (queryDNSServers (servers.DNSServers.take 3) "example.com" "A").started) fin ∧
      fin.done = true ∧
      (fin.sink.map fun e => (e.outcome.Status, e.outcome.RecordValues)).Perm
        [("OK", ["93.184.216.34"]), ("ERROR", []), ("OK", ["93.184.216.34"])] := by
  obtain ⟨fin, hfin, hd⟩ := reaches_done exampleNet
    (spawn (queryDNSServers (servers.DNSServers.take 3) "example.com" "A").started)
  have h := outcome_depends_only_on_own_exchange.2.2 _ _ _ "example.com" exampleNet
    ⟨"example.com.", 1, 1, 300, 4⟩ ⟨"example.com.", 1, 1, 300, 4⟩ "i/o timeout" fin
    rfl rfl rfl hfin hd
  have h2 := h.map (fun o => (o.Status, o.RecordValues))
  refine ⟨fin, hfin, hd, ?_⟩
  simpa [Function.comp_def] using h2

/-! ## The caller -/

/-- C10, on the input `a`. `printResults` accepts the lower-case name, its
upper-cased form `A` being a key of `SupportedDNSTypes`, and passes the name as
given to `queryDNSServers`, which returns the "not recognized" error and starts no
goroutine; `printResults` reports that error and receives nothing. -/
theorem printResults_lowercase_fails_in_dispatcher (unicodeToUpper : Char → Char)
    (DNSServers : List servers.DNSServer) :
    isKey (strings.ToUpper unicodeToUpper "a") ∧
    (queryDNSServers DNSServers "example.com" "a").err = some
      "record type a is not recognized as valid DNS record type or it's not supported" ∧
    (queryDNSServers DNSServers "example.com" "a").started = [] ∧
    printResults unicodeToUpper DNSServers "example.com" "a" = .queryFailed
      "Querying DNS serves failed, due to error: record type a is not recognized as valid DNS record type or it's not supported\name" := by
  have hup : strings.ToUpper unicodeToUpper "a" = "A" := rfl
  refine ⟨?_, rfl, rfl, rfl⟩
  rw [hup]
  decide
